import Mathlib

/-!
Shallow embedding of the `s_driver` linux character driver
(src/drivers/s_driver/s_driver-part1.c) and verification of its
specification.

The driver owns one device instance (`struct s_driver_dev_data`) holding a
512-byte buffer and a `size_t size` field.  `s_read` / `s_write` transfer
bytes between user space and the buffer, clamped by
`len = min((size_t)(data->size - *offset), size)`.

Modelling choices:
* `size_t` arithmetic is 64-bit unsigned; the subtraction
  `data->size - *offset` is therefore taken modulo 2^64 (`USIZE`).  This is
  where the driver's out-of-bounds behaviour for `*offset > size` lives, so
  it is modelled exactly.
* `loff_t` (the file offset) is a signed 64-bit integer, modelled as `Int`.
* The device instance is modelled as the raw bytes of the struct, addressed
  from the base of `char buffer[BUFSIZE]` (x86_64 layout: the array at
  byte offsets 0..511, the adjacent `size_t size` member at offsets
  512..519 little-endian, no padding, both 8-aligned).  `size` is a derived
  accessor reading those eight bytes.  Keeping one byte region gives the
  unchecked pointer arithmetic `data->buffer + *offset` its actual meaning
  for offsets at or beyond the array's end: an out-of-bounds copy lands in
  the `size` field itself.  The indices dereferenced by a call are also
  recorded by `s_rw_accessed` as `Int`s, mirroring the pointer arithmetic.
* `copy_to_user` / `copy_from_user` are external collaborators; per the
  spec (§7, §9) a copy is all-or-nothing, so each call takes a `copy_ok`
  flag: `true` means the user-memory copy succeeds, `false` means it
  faults and no transfer happens.
* User memory is a total map `Nat → Nat`; a stored byte is the value
  modulo 256, since the machine transfers bytes.
-/

namespace SDriver

/-- `#define BUFSIZE 512` -/
def BUFSIZE : Nat := 512

/-- `#define NUM_MINORS 1` -/
def NUM_MINORS : Nat := 1

/-- `-EFAULT` is returned when a user-memory copy fails; `EFAULT = 14`. -/
def EFAULT : Int := 14

/-- Modulus of `size_t` arithmetic (64-bit unsigned). -/
def USIZE : Nat := 2 ^ 64

/-- `#define MESSAGE "Hello World\n"` — the 12 ASCII bytes of the literal. -/
def MESSAGE : List Nat := [72, 101, 108, 108, 111, 32, 87, 111, 114, 108, 100, 10]

/-- The 13 bytes actually copied by `memcpy(devs[i].buffer, MESSAGE, sizeof(MESSAGE))`:
the literal plus its null terminator (`sizeof(MESSAGE) = 13`). -/
def MESSAGE_COPIED : List Nat := MESSAGE ++ [0]

/-- `struct s_driver_dev_data` minus the embedded `cdev` registration shim,
modelled as the raw bytes of the instance addressed from the base of
`char buffer[BUFSIZE]`: `buffer i` is the byte at offset `i` from
`data->buffer`.  Indices 0..511 are the array itself; indices 512..519 are
the adjacent `size_t size` member (little-endian, no padding between the
members on x86_64); larger indices are memory beyond this instance.  This
layout is load-bearing: the driver's unchecked `data->buffer + *offset`
arithmetic can reach the `size` member. -/
structure s_driver_dev_data where
  buffer : Nat → Nat

/-- The `size_t size` member of the struct, read little-endian from the
eight bytes at offsets `BUFSIZE`..`BUFSIZE + 7`, directly after the array. -/
def s_driver_dev_data.size (d : s_driver_dev_data) : Nat :=
  ((List.range 8).map (fun k => d.buffer (BUFSIZE + k) * 256 ^ k)).sum

/-- Device state established by `init_func`: `devs[]` has static storage
duration, so all bytes start zeroed; `memcpy` places the 13 bytes of
`MESSAGE` (with terminator) at offsets 0..12, and `devs[i].size = BUFSIZE`
stores 512 little-endian at offsets 512..519. -/
def init_dev : s_driver_dev_data :=
  ⟨fun i =>
    if i < BUFSIZE then MESSAGE_COPIED.getD i 0
    else if i < BUFSIZE + 8 then BUFSIZE / 256 ^ (i - BUFSIZE) % 256
    else 0⟩

/-- `min((size_t)(data->size - *offset), size)` — the effective transfer
length computed by both `s_read` and `s_write`.  The subtraction
`data->size - *offset` happens in unsigned 64-bit arithmetic, i.e. modulo
`USIZE`; for `offset > dsize` it wraps around to a huge value. -/
def lenOf (dsize : Nat) (offset : Int) (req : Nat) : Nat :=
  min ((((dsize : Int) - offset) % (USIZE : Int)).toNat) req

/-- Outcome of one `s_read` call: the `ssize_t` return value, the final
`*offset`, the device state after the call, and the bytes delivered into
the user buffer (empty when no copy succeeded). -/
structure ReadResult where
  ret : Int
  offset : Int
  data : s_driver_dev_data
  transferred : List Nat

/-- `s_read`: compute `len = min((size_t)(data->size - *offset), size)`;
if `len <= 0` (for the unsigned `len`, `len == 0`) return 0 with no
transfer; otherwise `copy_to_user(ubuf, data->buffer + *offset, len)` —
on fault return `-EFAULT` with the offset unchanged, on success advance
`*offset` by `len` and return `len`.  The bytes delivered are whatever
sits at byte offsets `*offset .. *offset+len-1` from `data->buffer`,
which for a wrapped `len` includes bytes of the `size` member. -/
def s_read (data : s_driver_dev_data) (req : Nat) (offset : Int)
    (copy_ok : Bool) : ReadResult :=
  let len := lenOf data.size offset req
  if len = 0 then
    ⟨0, offset, data, []⟩
  else if copy_ok then
    ⟨(len : Int), offset + (len : Int), data,
      (List.range len).map (fun j => data.buffer (offset.toNat + j))⟩
  else
    ⟨-EFAULT, offset, data, []⟩

/-- Outcome of one `s_write` call: the `ssize_t` return value, the final
`*offset`, and the device state after the call. -/
structure WriteResult where
  ret : Int
  offset : Int
  data : s_driver_dev_data

/-- `s_write`: compute `len` as in `s_read`; if `len <= 0` return 0 with no
transfer; otherwise `copy_from_user(data->buffer + *offset, ubuf, len)` —
on fault return `-EFAULT` with offset and device unchanged, on success
store the user bytes `src 0 .. src (len-1)` (as bytes, i.e. modulo 256) at
byte offsets `*offset .. *offset+len-1` from `data->buffer`, advance
`*offset` by `len` and return `len`.  For a wrapped `len` the stored range
reaches past the array into the `size` member's bytes. -/
def s_write (data : s_driver_dev_data) (src : Nat → Nat) (req : Nat)
    (offset : Int) (copy_ok : Bool) : WriteResult :=
  let len := lenOf data.size offset req
  if len = 0 then
    ⟨0, offset, data⟩
  else if copy_ok then
    ⟨(len : Int), offset + (len : Int),
      ⟨fun i => if offset.toNat ≤ i ∧ i < offset.toNat + len then
          src (i - offset.toNat) % 256
        else data.buffer i⟩⟩
  else
    ⟨-EFAULT, offset, data⟩

/-- The buffer indices dereferenced by a read or write call: the copy in
either direction touches `data->buffer + *offset + j` for `0 ≤ j < len`
(and touches nothing when `len = 0`, since the call returns before the
copy).  Indices are `Int` to mirror the C pointer arithmetic, which is not
bounds-checked. -/
def s_rw_accessed (dsize : Nat) (offset : Int) (req : Nat) : List Int :=
  (List.range (lenOf dsize offset req)).map (fun j : Nat => offset + (j : Int))

/-- `s_open`: stores a reference to the device in `file->private_data` and
returns 0; the device state itself is untouched.  Result is the return
value paired with the (unchanged) device state. -/
def s_open (data : s_driver_dev_data) : Int × s_driver_dev_data :=
  (0, data)

/-- `s_release`: logs and returns 0; the device state is untouched. -/
def s_release (data : s_driver_dev_data) : Int × s_driver_dev_data :=
  (0, data)

/-- Device states reachable after module load: the initial state, closed
under the four file operations. -/
inductive Reachable : s_driver_dev_data → Prop
  | init : Reachable init_dev
  | step_open (d : s_driver_dev_data) : Reachable d → Reachable (s_open d).2
  | step_read (d : s_driver_dev_data) (req : Nat) (offset : Int) (ok : Bool) :
      Reachable d → Reachable (s_read d req offset ok).data
  | step_write (d : s_driver_dev_data) (src : Nat → Nat) (req : Nat) (offset : Int) (ok : Bool) :
      Reachable d → Reachable (s_write d src req offset ok).data
  | step_release (d : s_driver_dev_data) : Reachable d → Reachable (s_release d).2

end SDriver

namespace SDriver

/-! ### Helper lemmas -/

/-- `s_read` never modifies the device state, in any of its branches. -/
theorem s_read_data_eq (d : s_driver_dev_data) (req : Nat) (offset : Int)
    (ok : Bool) : (s_read d req offset ok).data = d := by
  simp only [s_read]
  split
  · rfl
  · split <;> rfl

/-- A byte outside the range actually copied by `s_write` is unchanged, in
every branch. -/
theorem s_write_buffer_outside (d : s_driver_dev_data) (src : Nat → Nat) (req : Nat)
    (offset : Int) (ok : Bool) (i : Nat)
    (h : i < offset.toNat ∨ offset.toNat + lenOf d.size offset req ≤ i) :
    (s_write d src req offset ok).data.buffer i = d.buffer i := by
  have hcond : ¬ (offset.toNat ≤ i ∧ i < offset.toNat + lenOf d.size offset req) := by
    omega
  simp only [s_write]
  split
  · rfl
  · split
    · exact if_neg hcond
    · rfl

/-- A byte inside the range copied by a successful `s_write` holds the
corresponding user byte. -/
theorem s_write_buffer_inside (d : s_driver_dev_data) (src : Nat → Nat) (req : Nat)
    (offset : Int) (i : Nat) (hne : ¬ (lenOf d.size offset req = 0))
    (h1 : offset.toNat ≤ i) (h2 : i < offset.toNat + lenOf d.size offset req) :
    (s_write d src req offset true).data.buffer i = src (i - offset.toNat) % 256 := by
  simp only [s_write]
  rw [if_neg hne]
  show (if offset.toNat ≤ i ∧ i < offset.toNat + lenOf d.size offset req then
      src (i - offset.toNat) % 256
    else d.buffer i) = src (i - offset.toNat) % 256
  exact if_pos ⟨h1, h2⟩

/-- When the copied range stays inside the array (`offset + len ≤ BUFSIZE`),
the bytes of the `size` member are untouched and `size` is preserved. -/
theorem s_write_size_of_inbounds (d : s_driver_dev_data) (src : Nat → Nat)
    (req : Nat) (offset : Int) (ok : Bool)
    (h : offset.toNat + lenOf d.size offset req ≤ BUFSIZE) :
    (s_write d src req offset ok).data.size = d.size := by
  unfold s_driver_dev_data.size
  congr 1
  apply List.map_congr_left
  intro k hk
  rw [s_write_buffer_outside d src req offset ok (BUFSIZE + k) (Or.inr (by omega))]

/-- The bytes a successful `s_read` delivers are exactly the device bytes
at offsets `*offset .. *offset+len-1`. -/
theorem s_read_transferred_eq (d : s_driver_dev_data) (req : Nat) (offset : Int)
    (hne : ¬ (lenOf d.size offset req = 0)) :
    (s_read d req offset true).transferred =
      (List.range (lenOf d.size offset req)).map (fun j => d.buffer (offset.toNat + j)) := by
  simp only [s_read]
  rw [if_neg hne]
  simp

/-- For a nonnegative offset `O ≤ dsize`, the unsigned subtraction in
`lenOf` does not wrap, and the effective length is the mathematical
`min (dsize - O) req`. -/
theorem lenOf_eq_of_le (dsize O req : Nat) (h : O ≤ dsize) (h2 : dsize < USIZE) :
    lenOf dsize (O : Int) req = min (dsize - O) req := by
  unfold lenOf
  congr 1
  have h1 : ((dsize : Int) - (O : Int)) = ((dsize - O : Nat) : Int) := by
    push_cast [h]
    ring
  rw [h1, Int.emod_eq_of_lt (Int.natCast_nonneg _), Int.toNat_natCast]
  exact_mod_cast lt_of_le_of_lt (Nat.sub_le _ _) h2

/-- Reading a list back element by element over its index range reproduces
the list. -/
theorem map_getD_range (B : List Nat) :
    (List.range B.length).map (fun j => B.getD j 0) = B := by
  apply List.ext_getElem
  · simp
  · intro i h1 h2
    simp [List.getD_eq_getElem, List.getElem?_eq_getElem, h2]

/-- Writing the byte sequence `B` at offset 0 and then reading `B.length`
bytes at offset 0 from the resulting device state yields exactly `B`. -/
theorem round_key (d : s_driver_dev_data) (hsz : d.size = BUFSIZE)
    (B : List Nat) (hB : ∀ b ∈ B, b < 256) (h0 : 0 < B.length)
    (h512 : B.length ≤ BUFSIZE) :
    (s_read (s_write d (fun i => B.getD i 0) B.length 0 true).data B.length 0 true).transferred = B := by
  have h := lenOf_eq_of_le BUFSIZE 0 B.length (by omega) (by decide)
  rw [Nat.cast_zero] at h
  have hlen : lenOf d.size (0 : Int) B.length = B.length := by
    rw [hsz, h, Nat.sub_zero, min_eq_right h512]
  have hne : ¬ (lenOf d.size (0 : Int) B.length = 0) := by omega
  have htn : (0 : Int).toNat = 0 := rfl
  have hsize2 : (s_write d (fun i => B.getD i 0) B.length 0 true).data.size = d.size := by
    apply s_write_size_of_inbounds
    rw [htn, hlen]
    omega
  have hlen2 : lenOf (s_write d (fun i => B.getD i 0) B.length 0 true).data.size (0 : Int) B.length = B.length := by
    rw [hsize2, hlen]
  have hne2 : ¬ (lenOf (s_write d (fun i => B.getD i 0) B.length 0 true).data.size (0 : Int) B.length = 0) := by
    rw [hlen2]
    omega
  rw [s_read_transferred_eq _ _ _ hne2, hlen2]
  refine (List.map_congr_left ?_).trans (map_getD_range B)
  intro a ha
  have haB : a < B.length := List.mem_range.mp ha
  have hval : B.getD a 0 < 256 := by
    rw [List.getD_eq_getElem B 0 haB]
    exact hB _ (List.getElem_mem haB)
  have hin := s_write_buffer_inside d (fun i => B.getD i 0) B.length 0
    ((0 : Int).toNat + a) hne (Nat.le_add_right _ _) (by simpa [hlen] using haB)
  rw [hin]
  simp only [Int.toNat_zero, Nat.zero_add, Nat.sub_zero]
  exact Nat.mod_eq_of_lt hval

/-! ### Claim theorems -/

/-- Claim C1 — refuted by the code: the claim says any read or write whose
mathematical effective length `min(req, size - offset)` is ≤ 0 (offset at or
beyond `size = 512`, including strictly beyond) returns 0 with no transfer
and an unchanged offset.  The code computes `data->size - *offset` in
unsigned 64-bit arithmetic, so at offset 513 with one requested byte the
wrapped length is `min(2^64 - 1, 1) = 1`: both `s_read` and `s_write`
transfer one byte at the out-of-bounds position `buffer + 513`, return 1,
and advance the offset to 514.  The byte the read leaks is `0x02` — byte 1
of the adjacent little-endian `size` field holding 512. -/
theorem s_read_past_size_bug :
    (s_read init_dev 1 513 true).ret = 1 ∧
    (s_read init_dev 1 513 true).offset = 514 ∧
    (s_read init_dev 1 513 true).transferred = [2] ∧
    (s_write init_dev (fun _ => 65) 1 513 true).ret = 1 ∧
    (s_write init_dev (fun _ => 65) 1 513 true).offset = 514 :=
  ⟨rfl, rfl, rfl, rfl, rfl⟩

/-- Claim C2 — refuted by the code: the claim says every buffer access of
every read or write stays within index range [0, 512).  A one-byte read or
write at offset 513 computes the wrapped effective length 1 and
dereferences `data->buffer + 513`, i.e. buffer index 513, which is outside
[0, 512). -/
theorem s_rw_access_out_of_bounds :
    s_rw_accessed init_dev.size 513 1 = [513] ∧
    ¬ ((513 : Int) < (BUFSIZE : Int)) :=
  ⟨rfl, by decide⟩

/-- Claim C3: a read or write requesting `N > 0` bytes at offset `O` with
`0 ≤ O < size` and `O + N > size` transfers exactly `size - O` bytes and
never more (return value, number of bytes delivered, and number of buffer
cells touched all equal `size - O`); in general, for any offset
`O ≤ size`, the effective length computed by the code is
`min(requested, size - O)`. -/
theorem effective_length_clamped (d : s_driver_dev_data) (src : Nat → Nat)
    (hsz : d.size = BUFSIZE) (O N : Nat) (hO : O < BUFSIZE) (hN : 0 < N)
    (hover : BUFSIZE < O + N) :
    (s_read d N (O : Int) true).ret = ((BUFSIZE - O : Nat) : Int) ∧
    (s_read d N (O : Int) true).transferred.length = BUFSIZE - O ∧
    (s_write d src N (O : Int) true).ret = ((BUFSIZE - O : Nat) : Int) ∧
    (s_rw_accessed d.size (O : Int) N).length = BUFSIZE - O ∧
    (∀ O2 N2 : Nat, O2 ≤ BUFSIZE → lenOf d.size (O2 : Int) N2 = min N2 (BUFSIZE - O2)) := by
  have hgen : ∀ O2 N2 : Nat, O2 ≤ BUFSIZE → lenOf d.size (O2 : Int) N2 = min N2 (BUFSIZE - O2) := by
    intro O2 N2 hle
    rw [hsz, lenOf_eq_of_le BUFSIZE O2 N2 hle (by decide), min_comm]
  have hlen : lenOf d.size (O : Int) N = BUFSIZE - O := by
    rw [hgen O N hO.le]
    omega
  have hBO : ¬ (BUFSIZE - O = 0) := by
    simp only [BUFSIZE] at hO ⊢
    omega
  refine ⟨?_, ?_, ?_, ?_, hgen⟩
  · simp [s_read, hlen, hBO]
  · simp [s_read, hlen, hBO]
  · simp [s_write, hlen, hBO]
  · unfold s_rw_accessed
    rw [hlen, List.length_map, List.length_range]

/-- Witness for C3 at `O = 500`, `N = 100` on the freshly loaded device. -/
theorem effective_length_clamped_witness :
    init_dev.size = BUFSIZE ∧ (500 : Nat) < BUFSIZE ∧ (0 : Nat) < 100 ∧ BUFSIZE < 500 + 100 ∧
    ((s_read init_dev 100 ((500 : Nat) : Int) true).ret = ((BUFSIZE - 500 : Nat) : Int) ∧
     (s_read init_dev 100 ((500 : Nat) : Int) true).transferred.length = BUFSIZE - 500 ∧
     (s_write init_dev (fun _ => 7) 100 ((500 : Nat) : Int) true).ret = ((BUFSIZE - 500 : Nat) : Int) ∧
     (s_rw_accessed init_dev.size ((500 : Nat) : Int) 100).length = BUFSIZE - 500 ∧
     (∀ O2 N2 : Nat, O2 ≤ BUFSIZE → lenOf init_dev.size (O2 : Int) N2 = min N2 (BUFSIZE - O2))) :=
  ⟨by decide, by decide, by decide, by decide,
   effective_length_clamped init_dev (fun _ => 7) (by decide) 500 100 (by decide) (by decide) (by decide)⟩

/-- Claim C4: a successful read or write with positive effective length
(offset `O` in `[0, size)`, requested `N > 0`, copy succeeds) returns the
effective length `min(N, size - O)` and advances the offset by exactly that
amount. -/
theorem success_advances_offset (d : s_driver_dev_data) (src : Nat → Nat)
    (hsz : d.size = BUFSIZE) (O N : Nat) (hO : O < BUFSIZE) (hN : 0 < N) :
    (s_read d N (O : Int) true).ret = ((min N (BUFSIZE - O) : Nat) : Int) ∧
    (s_read d N (O : Int) true).offset = ((O + min N (BUFSIZE - O) : Nat) : Int) ∧
    (s_write d src N (O : Int) true).ret = ((min N (BUFSIZE - O) : Nat) : Int) ∧
    (s_write d src N (O : Int) true).offset = ((O + min N (BUFSIZE - O) : Nat) : Int) := by
  have hlen : lenOf d.size (O : Int) N = min N (BUFSIZE - O) := by
    rw [hsz, lenOf_eq_of_le BUFSIZE O N hO.le (by decide), min_comm]
  have hN0 : ¬ (N = 0) := by omega
  have hBO : ¬ (BUFSIZE - O = 0) := by
    simp only [BUFSIZE] at hO ⊢
    omega
  refine ⟨?_, ?_, ?_, ?_⟩ <;> simp [s_read, s_write, hlen, hN0, hBO]

/-- Witness for C4 at `O = 10`, `N = 3` on the freshly loaded device. -/
theorem success_advances_offset_witness :
    init_dev.size = BUFSIZE ∧ (10 : Nat) < BUFSIZE ∧ (0 : Nat) < 3 ∧
    ((s_read init_dev 3 ((10 : Nat) : Int) true).ret = ((min 3 (BUFSIZE - 10) : Nat) : Int) ∧
     (s_read init_dev 3 ((10 : Nat) : Int) true).offset = ((10 + min 3 (BUFSIZE - 10) : Nat) : Int) ∧
     (s_write init_dev (fun _ => 7) 3 ((10 : Nat) : Int) true).ret = ((min 3 (BUFSIZE - 10) : Nat) : Int) ∧
     (s_write init_dev (fun _ => 7) 3 ((10 : Nat) : Int) true).offset = ((10 + min 3 (BUFSIZE - 10) : Nat) : Int)) :=
  ⟨by decide, by decide, by decide,
   success_advances_offset init_dev (fun _ => 7) (by decide) 10 3 (by decide) (by decide)⟩

/-- Claim C5: when the user-memory copy faults (with positive effective
length, so the copy is actually attempted), both read and write return
`-EFAULT` — a negative status, distinguishable from every byte count — the
offset is not advanced, nothing is delivered to user space, and the device
state (buffer and size) is unchanged. -/
theorem fault_no_advance (d : s_driver_dev_data) (src : Nat → Nat)
    (offset : Int) (N : Nat) (hlen : 0 < lenOf d.size offset N) :
    (s_read d N offset false).ret = -EFAULT ∧
    (s_read d N offset false).ret < 0 ∧
    (s_read d N offset false).offset = offset ∧
    (s_read d N offset false).data = d ∧
    (s_read d N offset false).transferred = [] ∧
    (s_write d src N offset false).ret = -EFAULT ∧
    (s_write d src N offset false).ret < 0 ∧
    (s_write d src N offset false).offset = offset ∧
    (s_write d src N offset false).data = d := by
  have hne : ¬ (lenOf d.size offset N = 0) := by omega
  simp [s_read, s_write, hne, EFAULT]

/-- Witness for C5: a one-byte faulting read and write at offset 0 on the
freshly loaded device. -/
theorem fault_no_advance_witness :
    0 < lenOf init_dev.size 0 1 ∧
    ((s_read init_dev 1 0 false).ret = -EFAULT ∧
     (s_read init_dev 1 0 false).ret < 0 ∧
     (s_read init_dev 1 0 false).offset = 0 ∧
     (s_read init_dev 1 0 false).data = init_dev ∧
     (s_read init_dev 1 0 false).transferred = [] ∧
     (s_write init_dev (fun _ => 7) 1 0 false).ret = -EFAULT ∧
     (s_write init_dev (fun _ => 7) 1 0 false).ret < 0 ∧
     (s_write init_dev (fun _ => 7) 1 0 false).offset = 0 ∧
     (s_write init_dev (fun _ => 7) 1 0 false).data = init_dev) :=
  ⟨by decide, fault_no_advance init_dev (fun _ => 7) 0 1 (by decide)⟩

/-- Claim C6: `init_func` copies 13 bytes (the 12 ASCII bytes of
`"Hello World\n"` plus the literal's null terminator) into the buffer, so
immediately after load bytes 0..11 are exactly the greeting, byte 12 is 0,
and a 12-byte read at offset 0 through a newly opened handle returns
exactly the greeting. -/
theorem init_greeting :
    MESSAGE_COPIED.length = 13 ∧
    (List.range 12).map init_dev.buffer = MESSAGE ∧
    init_dev.buffer 12 = 0 ∧
    (s_read (s_open init_dev).2 12 0 true).ret = 12 ∧
    (s_read (s_open init_dev).2 12 0 true).transferred = MESSAGE :=
  ⟨rfl, rfl, rfl, rfl, rfl⟩

/-- Claim C7: for every byte sequence `B` with `0 < len(B) ≤ 512`, writing
`B` at offset 0 (copy succeeding) and then reading `len(B)` bytes at offset
0 (copy succeeding) returns exactly `B`; the same bytes are seen through a
handle opened after the write, since every handle shares the one device
instance. -/
theorem write_read_round_trip (d : s_driver_dev_data) (hsz : d.size = BUFSIZE)
    (B : List Nat) (hB : ∀ b ∈ B, b < 256) (h0 : 0 < B.length)
    (h512 : B.length ≤ BUFSIZE) :
    (s_read (s_write d (fun i => B.getD i 0) B.length 0 true).data B.length 0 true).transferred = B ∧
    (s_read (s_open (s_write d (fun i => B.getD i 0) B.length 0 true).data).2 B.length 0 true).transferred = B := by
  have key := round_key d hsz B hB h0 h512
  exact ⟨key, key⟩

/-- Witness for C7 with the two-byte sequence `"hi"` = `[104, 105]`. -/
theorem write_read_round_trip_witness :
    init_dev.size = BUFSIZE ∧ (∀ b ∈ [104, 105], b < 256) ∧
    0 < [104, 105].length ∧ [104, 105].length ≤ BUFSIZE ∧
    ((s_read (s_write init_dev (fun i => [104, 105].getD i 0) [104, 105].length 0 true).data
        [104, 105].length 0 true).transferred = [104, 105] ∧
     (s_read (s_open (s_write init_dev (fun i => [104, 105].getD i 0) [104, 105].length 0 true).data).2
        [104, 105].length 0 true).transferred = [104, 105]) :=
  ⟨by decide, by decide, by decide, by decide,
   write_read_round_trip init_dev (by decide) [104, 105] (by decide) (by decide) (by decide)⟩

/-- Claim C8 — refuted by the code: the claim says `size` is set once at
load to 512, that no operation ever changes it, and that it never exceeds
512 in any reachable state.  In the struct, `size_t size` sits directly
after `char buffer[512]` (both 8-aligned, no padding), and the same
unsigned-wrap bug as C1/C2 lets a write at offset 513 — reachable, since
the driver has no `llseek` and `default_llseek` permits seeking past 512 —
pass the length check and `copy_from_user` into `data->buffer + 513`,
which is byte 1 of `size`.  Writing the single byte 0xFF there turns
`size` from 512 into 0xFF00 = 65280 > 512: a reachable state whose `size`
was changed by a write and exceeds the buffer capacity. -/
theorem s_write_overwrites_size :
    init_dev.size = BUFSIZE ∧
    Reachable (s_write init_dev (fun _ => 255) 1 513 true).data ∧
    (s_write init_dev (fun _ => 255) 1 513 true).data.size = 65280 ∧
    ¬ ((s_write init_dev (fun _ => 255) 1 513 true).data.size ≤ BUFSIZE) :=
  ⟨by decide,
   Reachable.step_write init_dev (fun _ => 255) 1 513 true Reachable.init,
   by decide, by decide⟩

/-- Claim C9: `s_open` and `s_release` always return 0 and leave every
field of the device instance (buffer contents and size) untouched. -/
theorem open_release_no_effect (d : s_driver_dev_data) :
    (s_open d).1 = 0 ∧ (s_open d).2 = d ∧
    (s_release d).1 = 0 ∧ (s_release d).2 = d :=
  ⟨rfl, rfl, rfl, rfl⟩

/-- Claim C10: a successful write at offset `O ∈ [0, size)` with effective
length `len = min(N, size - O) > 0` leaves every buffer byte outside
`[O, O + len)` unchanged and leaves `size` unchanged (the copied range
stays inside the array, short of the `size` member's bytes); a successful
read changes no field of the device instance at all. -/
theorem write_frame_read_pure (d : s_driver_dev_data) (src : Nat → Nat)
    (hsz : d.size = BUFSIZE) (O N : Nat) (hO : O < BUFSIZE)
    (hpos : 0 < min N (BUFSIZE - O)) :
    (∀ i : Nat, i < O ∨ O + min N (BUFSIZE - O) ≤ i →
      (s_write d src N (O : Int) true).data.buffer i = d.buffer i) ∧
    (s_write d src N (O : Int) true).data.size = d.size ∧
    (s_read d N (O : Int) true).data = d := by
  have hlen : lenOf d.size (O : Int) N = min N (BUFSIZE - O) := by
    rw [hsz, lenOf_eq_of_le BUFSIZE O N hO.le (by decide), min_comm]
  have htn : ((O : Int)).toNat = O := Int.toNat_natCast O
  refine ⟨?_, ?_, s_read_data_eq d N (O : Int) true⟩
  · intro i hi
    apply s_write_buffer_outside
    rw [htn, hlen]
    omega
  · apply s_write_size_of_inbounds
    rw [htn, hlen]
    have hmr := Nat.min_le_right N (BUFSIZE - O)
    omega

/-- Witness for C10 at `O = 1`, `N = 2` on the freshly loaded device. -/
theorem write_frame_read_pure_witness :
    init_dev.size = BUFSIZE ∧ (1 : Nat) < BUFSIZE ∧ 0 < min 2 (BUFSIZE - 1) ∧
    ((∀ i : Nat, i < 1 ∨ 1 + min 2 (BUFSIZE - 1) ≤ i →
        (s_write init_dev (fun _ => 7) 2 ((1 : Nat) : Int) true).data.buffer i = init_dev.buffer i) ∧
     (s_write init_dev (fun _ => 7) 2 ((1 : Nat) : Int) true).data.size = init_dev.size ∧
     (s_read init_dev 2 ((1 : Nat) : Int) true).data = init_dev) :=
  ⟨by decide, by decide, by decide,
   write_frame_read_pure init_dev (fun _ => 7) (by decide) 1 2 (by decide) (by decide)⟩

end SDriver
